import Mathlib

/-!
Shallow embedding of bitnami/node-compilation-utils (src/index.js) and proofs
about its specified behaviour.

The library shells out to `configure`, `patch` and `make`. Its state is pure
except for one memoized host-information record; external effects (filesystem,
platform, child processes) are abstracted as explicit parameters.
-/

namespace CompilationUtils

/-- Environment overlay: the own enumerable entries of a JS env object. -/
abbrev Env := List (String × String)

/-- Numeric values reachable for maxParallelJobs in src/index.js: a natural
number or Infinity (the default on line 110). -/
inductive JNum where
  | fin (n : Nat)
  | inf
deriving DecidableEq, Repr

/-- Option-object shape: exactly the keys read anywhere in src/index.js.
A field holding none models an absent key. -/
structure Opts where
  cwd : Option String := none
  env : Option Env := none
  logger : Option Bool := none
  patchLevel : Option Int := none
  supportsParallelBuild : Option Bool := none
  maxParallelJobs : Option JNum := none
deriving DecidableEq, Repr

/-- Values the args positional parameter can take at the documented call sites:
undefined, null, a string, an array of strings, or a plain options object. -/
inductive JSArg where
  | undef
  | null
  | str (s : String)
  | list (xs : List String)
  | obj (o : Opts)
deriving DecidableEq, Repr

/-- Values the options positional parameter can take: undefined, null, or a
plain options object. -/
inductive OptsParam where
  | undef
  | null
  | given (o : Opts)
deriving DecidableEq, Repr

/-- Modelled from the spec: nami-utils lodash-extra isReallyObject (dependency,
not under src/) — a single ambiguous parameter is classified as options exactly
when it is a plain keyed structure (not a string, array, null or undefined). -/
def isReallyObject : JSArg → Bool
  | .obj _ => true
  | _ => false

/-- Modelled from the spec: nami-utils lodash-extra opts (dependency, not under
src/) — merges caller options over defaults, caller keys winning, and returns a
fresh object. -/
def optsMerge (options : OptsParam) (d : Opts) : Opts :=
  match options with
  | .given o =>
      { cwd := o.cwd <|> d.cwd
        env := o.env <|> d.env
        logger := o.logger <|> d.logger
        patchLevel := o.patchLevel <|> d.patchLevel
        supportsParallelBuild := o.supportsParallelBuild <|> d.supportsParallelBuild
        maxParallelJobs := o.maxParallelJobs <|> d.maxParallelJobs }
  | _ => d

/-- Modelled from the spec: nami-utils lodash-extra toArray (dependency, not
under src/) — yields the caller-supplied argument sequence as an array: arrays
unchanged, a lone string wrapped, anything without elements empty. -/
def jsToArray : JSArg → List String
  | .list xs => xs
  | .str s => [s]
  | _ => []

/-- Embedding of Node path.join for a directory and a file name. -/
def pathJoin (dir name : String) : String := dir ++ "/" ++ name

/-- Source src/index.js line 14: the candidate configure script names, in
search order. -/
def wellKnownScripts : List String := ["configure", "config"]

/-- Failure taxonomy of the library (spec section 7): configure script missing,
spawn failure, and nonzero exit of the child process. -/
inductive RunError where
  | configNotFound (msg : String)
  | spawnError (msg : String)
  | executionError (code : Nat) (stdout stderr msg : String)
deriving DecidableEq, Repr

/-- Embedding of _findConfigureScript (src/index.js lines 13-20). The
filesystem is abstracted as the predicate fexists on absolute paths. The
source tests the found name with lodash isEmpty, which is true for undefined
and for the empty string; getD followed by isEmpty models exactly that. -/
def findConfigureScript (fexists : String → Bool) (dir : String) : Except RunError String :=
  let configureScript := wellKnownScripts.find? (fun script => fexists (pathJoin dir script))
  if (configureScript.getD "").isEmpty then
    .error (.configNotFound
      ("Cannot find any of " ++ String.intercalate ", " wellKnownScripts ++ " under " ++ dir))
  else
    .ok (pathJoin dir (configureScript.getD ""))

/-- Embedding of the overload resolution shared by runWithinEnvironment,
configure and make (src/index.js lines 34-37, 55-58 and 106-109): when options
is undefined and args is a plain object, args is reinterpreted as options and
args becomes the empty array. -/
def resolveOverload (args : JSArg) (options : OptsParam) : JSArg × OptsParam :=
  match options, args with
  | .undef, .obj o => (.list [], .given o)
  | options, args => (args, options)

/-- Delegation record handed to the command runner u.logExec: command, argument
value and merged options. -/
structure ExecCall where
  cmd : String
  args : JSArg
  opts : Opts
deriving DecidableEq, Repr

/-- Embedding of runWithinEnvironment (src/index.js lines 33-42): overload
resolution, option defaulting against {cwd, env: {}, logger: null}, null or
undefined args replaced by the empty array, then delegation to the runner. -/
def runWithinEnvironment (cwd cmd : String) (args : JSArg) (options : OptsParam) : ExecCall :=
  let r := resolveOverload args options
  let opts := optsMerge r.2 { cwd := some cwd, env := some [], logger := some false }
  let args :=
    match r.1 with
    | .null => JSArg.list []
    | .undef => JSArg.list []
    | a => a
  { cmd := cmd, args := args, opts := opts }

/-- Embedding of configure (src/index.js lines 54-61): overload resolution,
script lookup, then delegation through runWithinEnvironment. -/
def configure (fexists : String → Bool) (cwd : String) (args : JSArg) (options : OptsParam) :
    Except RunError ExecCall :=
  let r := resolveOverload args options
  match findConfigureScript fexists cwd with
  | .error e => .error e
  | .ok configureScript => .ok (runWithinEnvironment cwd configureScript r.1 r.2)

/-- Embedding of patch (src/index.js lines 74-77): defaults patchLevel to 0 and
delegates with the literal three-element argument array. -/
def patch (cwd patchFile : String) (options : OptsParam) : ExecCall :=
  let opts := optsMerge options { patchLevel := some (0 : Int) }
  runWithinEnvironment cwd "patch"
    (.list ["-p" ++ toString (opts.patchLevel.getD 0), "-i", patchFile])
    (.given opts)

/-- Whitespace characters of the regex class used on src/index.js line 85:
space, tab, line feed, vertical tab, form feed and carriage return. -/
def isJsWhitespace (c : Char) : Bool :=
  c = Char.ofNat 32 || c = Char.ofNat 9 || c = Char.ofNat 10 ||
  c = Char.ofNat 11 || c = Char.ofNat 12 || c = Char.ofNat 13

/-- Matches one or more whitespace characters followed by a colon: the tail of
the pattern on src/index.js line 85 after the literal word. -/
def wsThenColon : List Char → Bool
  | [] => false
  | c :: rest =>
    isJsWhitespace c &&
      (match rest.dropWhile isJsWhitespace with
       | d :: _ => d = Char.ofNat 58
       | [] => false)

/-- Decides whether a line of /proc/cpuinfo matches the processor-line pattern
of src/index.js line 85: the word processor at the start of the line, one or
more whitespace characters, then a colon. -/
def processorLineMatch (line : String) : Bool :=
  let cs := line.toList
  List.isPrefixOf ("processor".toList) cs && wsThenColon (cs.drop 9)

/-- Host information record built by _machineInformation. -/
structure MachineInfo where
  cores : Nat
deriving DecidableEq, Repr

/-- Embedding of the function memoized as _machineInformation (src/index.js
lines 80-90). The platform check and the lines of /proc/cpuinfo are abstracted
as parameters; the count of matching lines is the fold the eachLine callback
performs. -/
def machineInformationCompute (isLinux : Bool) (cpuinfoLines : List String) : MachineInfo :=
  let info : MachineInfo := { cores := 2 }
  if isLinux then
    let cores := cpuinfoLines.foldl (fun c line => if processorLineMatch line then c + 1 else c) 0
    { cores := max cores info.cores }
  else
    info

/-- World visible to the machine-information computation: the platform flag and
the current lines of /proc/cpuinfo. -/
structure HostWorld where
  isLinux : Bool
  cpuinfoLines : List String
deriving DecidableEq, Repr

/-- Modelled from the spec: lodash memoize as applied on src/index.js line 80
(dependency, not under src/) — one call against an explicit cache cell: a
filled cache is returned as is, an empty one is filled from the present
world. -/
def machineInformationMemo (cache : Option MachineInfo) (w : HostWorld) :
    MachineInfo × Option MachineInfo :=
  match cache with
  | some v => (v, some v)
  | none =>
    let v := machineInformationCompute w.isLinux w.cpuinfoLines
    (v, some v)

/-- Runs machineInformationMemo once per world in the list, threading the cache
through and counting how many times the underlying computation actually ran. -/
def memoRuns : Option MachineInfo → List HostWorld → List MachineInfo × Option MachineInfo × Nat
  | cache, [] => ([], cache, 0)
  | cache, w :: ws =>
    let step := machineInformationMemo cache w
    let rest := memoRuns step.2 ws
    (step.1 :: rest.1, rest.2.1, (if cache.isNone then 1 else 0) + rest.2.2)

/-- The extra defaults applied by make (src/index.js line 110). -/
def makeDefaults : Opts := { supportsParallelBuild := some true, maxParallelJobs := some JNum.inf }

/-- Embedding of Math.min over a natural number and a possibly infinite
bound. -/
def jnumMin (n : Nat) : JNum → Nat
  | .fin m => min n m
  | .inf => n

/-- Embedding of make (src/index.js lines 105-120); mi is the memoized machine
information. The concat on line 117 always runs, because any call that supplies
cwd has arguments.length at least 1. -/
def make (mi : MachineInfo) (cwd : String) (args : JSArg) (options : OptsParam) : ExecCall :=
  let r := resolveOverload args options
  let opts := optsMerge r.2 makeDefaults
  let makeArgs : List String :=
    if opts.supportsParallelBuild.getD true then
      ["--jobs=" ++ toString (jnumMin (mi.cores + 1) (opts.maxParallelJobs.getD JNum.inf))]
    else []
  let makeArgs := makeArgs ++ jsToArray r.1
  runWithinEnvironment cwd "make" (.list makeArgs) (.given opts)

/-- Outcome of one child process: exit code and captured streams. -/
structure ChildResult where
  code : Nat
  stdout : String
  stderr : String
deriving DecidableEq, Repr

/-- Modelled from the spec: u.logExec from common-utils (dependency, not under
src/), the command runner of spec section 4.1. Spawning is abstracted as a
function from the delegation to an optional child outcome; no outcome means the
executable could not be spawned. -/
def logExec (call : ExecCall) (spawn : ExecCall → Option ChildResult) : Except RunError String :=
  match spawn call with
  | none => .error (.spawnError ("Unable to spawn " ++ call.cmd))
  | some child =>
    if child.code = 0 then
      .ok child.stdout
    else
      .error (.executionError child.code child.stdout child.stderr
        ("Program exited with exit code " ++ toString child.code))

/-- runWithinEnvironment followed by the runner. -/
def runWithinEnvironmentExec (cwd cmd : String) (args : JSArg) (options : OptsParam)
    (spawn : ExecCall → Option ChildResult) : Except RunError String :=
  logExec (runWithinEnvironment cwd cmd args options) spawn

/-- configure followed by the runner. -/
def configureExec (fexists : String → Bool) (cwd : String) (args : JSArg) (options : OptsParam)
    (spawn : ExecCall → Option ChildResult) : Except RunError String :=
  match configure fexists cwd args options with
  | .error e => .error e
  | .ok call => logExec call spawn

/-- patch followed by the runner. -/
def patchExec (cwd patchFile : String) (options : OptsParam)
    (spawn : ExecCall → Option ChildResult) : Except RunError String :=
  logExec (patch cwd patchFile options) spawn

/-- make followed by the runner. -/
def makeExec (mi : MachineInfo) (cwd : String) (args : JSArg) (options : OptsParam)
    (spawn : ExecCall → Option ChildResult) : Except RunError String :=
  logExec (make mi cwd args options) spawn

/-- Effective options seen by the body of make once overload resolution and
defaulting have run. -/
def makeEffectiveOpts (args : JSArg) (options : OptsParam) : Opts :=
  optsMerge (resolveOverload args options).2 makeDefaults

/-- Effective caller-supplied argument array seen by the body of make once
overload resolution has run. -/
def makeEffectiveArgs (args : JSArg) (options : OptsParam) : List String :=
  jsToArray (resolveOverload args options).1

/-- Heap of JS string arrays; a reference is an index into the list. Used to
state that the entry points never mutate caller-supplied arrays. -/
abbrev ArrHeap := List (List String)

/-- Heap of JS objects used as environment overlays. -/
abbrev ObjHeap := List Env

/-- Allocates a fresh array cell, returning its reference. -/
def allocArr (h : ArrHeap) (v : List String) : Nat × ArrHeap := (h.length, h ++ [v])

/-- Reads an array cell. -/
def readArr (h : ArrHeap) (r : Nat) : List String := h.getD r []

/-- Overwrites an array cell, as Array.prototype.push does on its receiver. -/
def writeArr (h : ArrHeap) (r : Nat) (v : List String) : ArrHeap := h.set r v

/-- Delegation record at the heap level: the argument array and the environment
object are passed by reference. -/
structure ExecCallRef where
  cmd : String
  cwd : String
  argsRef : Nat
  envRef : Nat
deriving DecidableEq, Repr

/-- Heap-level embedding of runWithinEnvironment (src/index.js lines 33-42) for
a caller-supplied argument array: overload resolution and option defaulting
rebind locals and build fresh objects, so no existing heap cell is written. -/
def runWithinEnvironmentSt (hA : ArrHeap) (hO : ObjHeap) (cwd cmd : String)
    (argsRef envRef : Nat) : ExecCallRef × ArrHeap × ObjHeap :=
  ({ cmd := cmd, cwd := cwd, argsRef := argsRef, envRef := envRef }, hA, hO)

/-- Heap-level embedding of patch (src/index.js lines 74-77): the three-element
argument array is a fresh literal. -/
def patchSt (hA : ArrHeap) (hO : ObjHeap) (cwd patchFile : String) (patchLevel : Int)
    (envRef : Nat) : ExecCallRef × ArrHeap × ObjHeap :=
  let a := allocArr hA ["-p" ++ toString patchLevel, "-i", patchFile]
  ({ cmd := "patch", cwd := cwd, argsRef := a.1, envRef := envRef }, a.2, hO)

/-- Heap-level embedding of configure (src/index.js lines 54-61): the lookup
reads the filesystem only, and both outcomes leave the heaps untouched. -/
def configureSt (fexists : String → Bool) (hA : ArrHeap) (hO : ObjHeap) (cwd : String)
    (argsRef envRef : Nat) : Except RunError ExecCallRef × ArrHeap × ObjHeap :=
  match findConfigureScript fexists cwd with
  | .error e => (.error e, hA, hO)
  | .ok script => (.ok { cmd := script, cwd := cwd, argsRef := argsRef, envRef := envRef }, hA, hO)

/-- Heap-level embedding of make (src/index.js lines 105-120): line 112
allocates a fresh empty array, line 114 pushes the jobs flag onto that fresh
array, and line 117 allocates another fresh array holding the concatenation
with the caller arguments; the caller cells are only read. -/
def makeSt (hA : ArrHeap) (hO : ObjHeap) (mi : MachineInfo) (cwd : String)
    (argsRef envRef : Nat) (supportsParallelBuild : Bool) (maxParallelJobs : JNum) :
    ExecCallRef × ArrHeap × ObjHeap :=
  let a := allocArr hA []
  let hA1 :=
    if supportsParallelBuild then
      writeArr a.2 a.1 (readArr a.2 a.1 ++
        ["--jobs=" ++ toString (jnumMin (mi.cores + 1) maxParallelJobs)])
    else a.2
  let b := allocArr hA1 (readArr hA1 a.1 ++ readArr hA1 argsRef)
  ({ cmd := "make", cwd := cwd, argsRef := b.1, envRef := envRef }, b.2, hO)

/-!
Helper lemmas shared by the claim theorems.
-/

/-- Applying runWithinEnvironment to already resolved parameters gives the same
delegation: overload resolution is idempotent. -/
theorem runWithinEnvironment_resolved (cwd cmd : String) (args : JSArg) (options : OptsParam) :
    runWithinEnvironment cwd cmd (resolveOverload args options).1 (resolveOverload args options).2
      = runWithinEnvironment cwd cmd args options := by
  cases options <;> cases args <;> rfl

/-- The counting fold of the eachLine callback equals countP. -/
theorem foldl_count_eq_countP (p : String → Bool) (l : List String) (n : Nat) :
    l.foldl (fun c line => if p line then c + 1 else c) n = n + l.countP p := by
  induction l generalizing n with
  | nil => simp
  | cons a as ih =>
    cases hpa : p a <;> simp [List.foldl, List.countP_cons, hpa, ih]
    omega

/-- Once the cache is filled, every further memoized call returns the cached
value, never recomputing. -/
theorem memoRuns_cached (v : MachineInfo) (ws : List HostWorld) :
    memoRuns (some v) ws = (List.replicate ws.length v, some v, 0) := by
  induction ws with
  | nil => rfl
  | cons w ws ih => simp [memoRuns, machineInformationMemo, ih, List.replicate]

/-- Reading below the length of the original heap ignores appended cells. -/
theorem readArr_append_lt (h : ArrHeap) (vs : List (List String)) (r : Nat)
    (hr : r < h.length) : readArr (h ++ vs) r = readArr h r := by
  unfold readArr
  rw [List.getD_eq_getElem?_getD, List.getD_eq_getElem?_getD, List.getElem?_append_left hr]

/-- Writing one cell leaves every other cell unchanged. -/
theorem readArr_set_ne (h : ArrHeap) (i : Nat) (v : List String) (r : Nat)
    (hri : i ≠ r) : readArr (h.set i v) r = readArr h r := by
  unfold readArr
  rw [List.getD_eq_getElem?_getD, List.getD_eq_getElem?_getD, List.getElem?_set_ne hri]

/-- C10: a null args parameter to runWithinEnvironment behaves exactly like an
omitted (undefined) one: the delegations are identical and both hand the runner
the empty argument list. -/
theorem runWithinEnvironment_null_args_like_omitted (cwd cmd : String) (options : OptsParam) :
    runWithinEnvironment cwd cmd .null options = runWithinEnvironment cwd cmd .undef options ∧
    (runWithinEnvironment cwd cmd .null options).args = .list [] ∧
    (runWithinEnvironment cwd cmd .undef options).args = .list [] := by
  cases options <;> exact ⟨rfl, rfl, rfl⟩

/-- C7: patch delegates to the runner with command patch and exactly the
three-element argument list with the strip flag first, the literal -i flag
second and the patch file third, where the strip level is options.patchLevel
when given and 0 otherwise. -/
theorem patch_delegation (cwd patchFile : String) (options : OptsParam) :
    (patch cwd patchFile options).cmd = "patch" ∧
    (patch cwd patchFile options).args =
      .list ["-p" ++ toString
          ((optsMerge options { patchLevel := some (0 : Int) }).patchLevel.getD 0),
        "-i", patchFile] ∧
    (∀ o : Opts, ∀ l : Int, options = .given o → o.patchLevel = some l →
      (patch cwd patchFile options).args = .list ["-p" ++ toString l, "-i", patchFile]) ∧
    (∀ o : Opts, options = .given o → o.patchLevel = none →
      (patch cwd patchFile options).args = .list ["-p0", "-i", patchFile]) ∧
    ((options = .undef ∨ options = .null) →
      (patch cwd patchFile options).args = .list ["-p0", "-i", patchFile]) := by
  refine ⟨rfl, rfl, ?_, ?_, ?_⟩
  · intro o l ho hl
    subst ho
    simp [patch, runWithinEnvironment, resolveOverload, optsMerge, hl]
  · intro o ho hl
    subst ho
    simp [patch, runWithinEnvironment, resolveOverload, optsMerge, hl]
    rfl
  · intro ho
    rcases ho with ho | ho <;> subst ho <;> rfl

/-- Witness for C7 at concrete inputs: an explicit patchLevel of 3 and an
absent options object. -/
theorem patch_delegation_witness :
    (patch "/w" "f.patch" (.given { patchLevel := some 3 })).args
        = .list ["-p3", "-i", "f.patch"] ∧
    (patch "/w" "f.patch" .null).args = .list ["-p0", "-i", "f.patch"] := by
  constructor
  · exact (patch_delegation "/w" "f.patch" (.given { patchLevel := some 3 })).2.2.1
      { patchLevel := some 3 } 3 rfl rfl
  · exact (patch_delegation "/w" "f.patch" .null).2.2.2.2 (Or.inr rfl)

/-- C5: core-count detection returns the matching-line count floored at 2 on
Linux hosts, the fixed default 2 on any other host, and in every case a value
of at least 2. -/
theorem machineInformation_cores_spec (isLinux : Bool) (lines : List String) :
    (isLinux = true →
      (machineInformationCompute isLinux lines).cores
        = max (lines.countP processorLineMatch) 2) ∧
    (isLinux = false → (machineInformationCompute isLinux lines).cores = 2) ∧
    2 ≤ (machineInformationCompute isLinux lines).cores := by
  refine ⟨?_, ?_, ?_⟩
  · intro h
    subst h
    simp [machineInformationCompute, foldl_count_eq_countP]
  · intro h
    subst h
    rfl
  · cases isLinux with
    | false => exact le_refl 2
    | true =>
      have hc : (machineInformationCompute true lines).cores
          = max (lines.countP processorLineMatch) 2 := by
        simp [machineInformationCompute, foldl_count_eq_countP]
      rw [hc]
      exact le_max_right _ _

/-- Witness for C5 at concrete inputs: a three-processor cpuinfo on Linux, a
one-processor cpuinfo on Linux (floored to 2), and a non-Linux host. -/
theorem machineInformation_cores_spec_witness :
    (machineInformationCompute true
      ["processor\t: 0", "model name : x", "processor\t: 1", "processor\t: 2"]).cores
        = max 3 2 ∧
    (machineInformationCompute true ["processor\t: 0"]).cores = max 1 2 ∧
    (machineInformationCompute false ["processor\t: 0", "processor\t: 1"]).cores = 2 := by
  refine ⟨?_, ?_, ?_⟩
  · have := (machineInformation_cores_spec true
      ["processor\t: 0", "model name : x", "processor\t: 1", "processor\t: 2"]).1 rfl
    rw [this]
    decide
  · have := (machineInformation_cores_spec true ["processor\t: 0"]).1 rfl
    rw [this]
    decide
  · exact (machineInformation_cores_spec false ["processor\t: 0", "processor\t: 1"]).2.1 rfl

/-- C8: host-information detection is memoized: across any nonempty sequence of
invocations, starting from the empty cache, the underlying computation runs
exactly once, every invocation returns the value computed from the first world
even if /proc/cpuinfo changes afterwards, and the cache ends up holding exactly
that value. -/
theorem machineInformation_memoized (w : HostWorld) (ws : List HostWorld) :
    (memoRuns none (w :: ws)).2.2 = 1 ∧
    (memoRuns none (w :: ws)).1
      = List.replicate (ws.length + 1) (machineInformationCompute w.isLinux w.cpuinfoLines) ∧
    (memoRuns none (w :: ws)).2.1
      = some (machineInformationCompute w.isLinux w.cpuinfoLines) := by
  refine ⟨?_, ?_, ?_⟩ <;>
    simp [memoRuns, machineInformationMemo, memoRuns_cached, List.replicate]

/-- C3: when at least one of configure, config exists under the directory,
configure selects the first existing name in the order configure then config
(so configure is chosen whenever both exist) and delegates to the runner with
the joined path as command, passing args and options through unchanged. -/
theorem configure_selects_first_existing (fexists : String → Bool) (cwd : String) (args : JSArg)
    (options : OptsParam)
    (h : fexists (pathJoin cwd "configure") = true ∨ fexists (pathJoin cwd "config") = true) :
    configure fexists cwd args options =
      .ok (runWithinEnvironment cwd
        (pathJoin cwd (if fexists (pathJoin cwd "configure") then "configure" else "config"))
        args options) := by
  cases hc : fexists (pathJoin cwd "configure") with
  | true =>
    have hfind : findConfigureScript fexists cwd = .ok (pathJoin cwd "configure") := by
      simp [findConfigureScript, wellKnownScripts, List.find?, hc]
      decide
    simp only [configure, hfind, hc, if_true]
    rw [runWithinEnvironment_resolved]
  | false =>
    have hcfg : fexists (pathJoin cwd "config") = true := by
      rcases h with h1 | h2
      · rw [hc] at h1
        cases h1
      · exact h2
    have hfind : findConfigureScript fexists cwd = .ok (pathJoin cwd "config") := by
      simp [findConfigureScript, wellKnownScripts, List.find?, hc, hcfg]
      decide
    simp only [configure, hfind, hc, Bool.false_eq_true, if_false]
    rw [runWithinEnvironment_resolved]

/-- Witness for C3 at concrete inputs: a directory holding both scripts, where
configure wins. -/
theorem configure_selects_first_existing_witness :
    configure (fun p => p == "/d/configure" || p == "/d/config") "/d" (.list ["--x"]) .null
      = .ok (runWithinEnvironment "/d" "/d/configure" (.list ["--x"]) .null) := by
  have h := configure_selects_first_existing
    (fun p => p == "/d/configure" || p == "/d/config") "/d" (.list ["--x"]) .null
    (Or.inl (by decide))
  rw [h]
  rfl

/-- C4: when neither configure nor config exists in the directory, configure
fails with a config-not-found error whose message names both candidate script
names and the searched directory, produces no delegation to the runner, and
that error kind is distinct from the spawn and execution kinds. -/
theorem configure_missing_scripts (fexists : String → Bool) (cwd : String) (args : JSArg)
    (options : OptsParam)
    (h1 : fexists (pathJoin cwd "configure") = false)
    (h2 : fexists (pathJoin cwd "config") = false) :
    configure fexists cwd args options =
        .error (.configNotFound ("Cannot find any of configure, config under " ++ cwd)) ∧
    (∀ call : ExecCall, configure fexists cwd args options ≠ .ok call) ∧
    (∃ p q r, "Cannot find any of configure, config under " ++ cwd
        = p ++ ("configure" ++ (q ++ ("config" ++ (r ++ cwd))))) ∧
    (∀ m1 m2, RunError.configNotFound m1 ≠ RunError.spawnError m2) ∧
    (∀ m1 c so se m2, RunError.configNotFound m1 ≠ RunError.executionError c so se m2) := by
  have hfind : findConfigureScript fexists cwd
      = .error (.configNotFound ("Cannot find any of configure, config under " ++ cwd)) := by
    simp [findConfigureScript, wellKnownScripts, List.find?, h1, h2]
    rfl
  refine ⟨?_, ?_, ?_, ?_, ?_⟩
  · simp [configure, hfind]
  · intro call
    simp [configure, hfind]
  · refine ⟨"Cannot find any of ", ", ", " under ", ?_⟩
    simp only [← String.append_assoc]
    rfl
  · intro m1 m2 hne
    cases hne
  · intro m1 c so se m2 hne
    cases hne

/-- Witness for C4 at a concrete input: an empty directory. -/
theorem configure_missing_scripts_witness :
    configure (fun _ => false) "/empty" (.list []) .null
      = .error (.configNotFound "Cannot find any of configure, config under /empty") := by
  have h := (configure_missing_scripts (fun _ => false) "/empty" (.list []) .null rfl rfl).1
  rw [h]
  rfl

/-- C2: when the runner spawns a child that exits 0, the captured stdout is
returned; when the child exits with a nonzero code, the result is an execution
error carrying the code, stdout and stderr, with a message containing the text
Program exited with exit code followed by the code; an execution error arises
exactly when the code is nonzero; and runWithinEnvironmentExec, patchExec,
makeExec and configureExec (on a found script) all delegate through the same
runner. -/
theorem runner_exit_code_dichotomy (call : ExecCall) (spawn : ExecCall → Option ChildResult)
    (child : ChildResult) (hs : spawn call = some child) :
    (child.code = 0 → logExec call spawn = .ok child.stdout) ∧
    (child.code ≠ 0 →
      logExec call spawn = .error (.executionError child.code child.stdout child.stderr
        ("Program exited with exit code " ++ toString child.code)) ∧
      ∃ p q, "Program exited with exit code " ++ toString child.code
        = p ++ ("Program exited with exit code " ++ toString child.code) ++ q) ∧
    ((∃ c so se m, logExec call spawn = .error (.executionError c so se m)) ↔ child.code ≠ 0) ∧
    (∀ cwd cmd args options, runWithinEnvironmentExec cwd cmd args options spawn
      = logExec (runWithinEnvironment cwd cmd args options) spawn) ∧
    (∀ cwd pf o, patchExec cwd pf o spawn = logExec (patch cwd pf o) spawn) ∧
    (∀ mi cwd a o, makeExec mi cwd a o spawn = logExec (make mi cwd a o) spawn) ∧
    (∀ fe cwd a o c, configure fe cwd a o = .ok c →
      configureExec fe cwd a o spawn = logExec c spawn) := by
  have hlog : logExec call spawn
      = if child.code = 0 then .ok child.stdout
        else .error (.executionError child.code child.stdout child.stderr
          ("Program exited with exit code " ++ toString child.code)) := by
    simp [logExec, hs]
  refine ⟨?_, ?_, ?_, fun _ _ _ _ => rfl, fun _ _ _ => rfl, fun _ _ _ _ => rfl, ?_⟩
  · intro h
    rw [hlog, if_pos h]
  · intro h
    refine ⟨by rw [hlog, if_neg h], "", "", by simp⟩
  · constructor
    · rintro ⟨c, so, se, m, hm⟩ hzero
      rw [hlog, if_pos hzero] at hm
      cases hm
    · intro h
      exact ⟨child.code, child.stdout, child.stderr,
        "Program exited with exit code " ++ toString child.code, by rw [hlog, if_neg h]⟩
  · intro fe cwd a o c hok
    simp [configureExec, hok]

/-- Witness for C2 at concrete inputs: a child failing with exit code 1 and a
child succeeding with exit code 0. -/
theorem runner_exit_code_dichotomy_witness :
    logExec ⟨"false", .list [], {}⟩ (fun _ => some ⟨1, "out", "err"⟩)
      = .error (.executionError 1 "out" "err" "Program exited with exit code 1") ∧
    logExec ⟨"pwd", .list [], {}⟩ (fun _ => some ⟨0, "/tmp\n", ""⟩) = .ok "/tmp\n" := by
  constructor
  · exact ((runner_exit_code_dichotomy ⟨"false", .list [], {}⟩
      (fun _ => some ⟨1, "out", "err"⟩) ⟨1, "out", "err"⟩ rfl).2.1 (by decide)).1
  · exact (runner_exit_code_dichotomy ⟨"pwd", .list [], {}⟩
      (fun _ => some ⟨0, "/tmp\n", ""⟩) ⟨0, "/tmp\n", ""⟩ rfl).1 rfl

/-- C6: for runWithinEnvironment, configure and make, an args parameter that is
a plain keyed structure is reinterpreted as options (with args becoming empty)
exactly when options is omitted; a string or array args parameter is kept as
args; and each function delegates exactly as if called with the resolved
parameters, unchanged in all other respects. -/
theorem overload_resolution_rules (fexists : String → Bool) (mi : MachineInfo)
    (cwd cmd : String) (args : JSArg) (options : OptsParam) :
    (∀ o : Opts, args = .obj o → options = .undef →
      resolveOverload args options = (.list [], .given o)) ∧
    (∀ s : String, args = .str s → (resolveOverload args options).1 = .str s) ∧
    (∀ xs : List String, args = .list xs → (resolveOverload args options).1 = .list xs) ∧
    runWithinEnvironment cwd cmd args options
      = runWithinEnvironment cwd cmd (resolveOverload args options).1
          (resolveOverload args options).2 ∧
    configure fexists cwd args options
      = configure fexists cwd (resolveOverload args options).1 (resolveOverload args options).2 ∧
    make mi cwd args options
      = make mi cwd (resolveOverload args options).1 (resolveOverload args options).2 := by
  refine ⟨?_, ?_, ?_, ?_, ?_, ?_⟩
  · intro o ha ho
    subst ha
    subst ho
    rfl
  · intro s ha
    subst ha
    cases options <;> rfl
  · intro xs ha
    subst ha
    cases options <;> rfl
  · exact (runWithinEnvironment_resolved cwd cmd args options).symm
  · cases options <;> cases args <;> rfl
  · cases options <;> cases args <;> rfl

/-- Witness for C6 at concrete inputs: an options-like second parameter with no
third parameter, a kept string and a kept array. -/
theorem overload_resolution_rules_witness :
    resolveOverload (.obj { env := some [("A", "1")] }) .undef
      = (.list [], .given { env := some [("A", "1")] }) ∧
    (resolveOverload (.str "x") .null).1 = .str "x" ∧
    (resolveOverload (.list ["a", "b"]) .undef).1 = .list ["a", "b"] := by
  refine ⟨?_, ?_, ?_⟩
  · exact (overload_resolution_rules (fun _ => false) ⟨2⟩ "" ""
      (.obj { env := some [("A", "1")] }) .undef).1 { env := some [("A", "1")] } rfl rfl
  · exact (overload_resolution_rules (fun _ => false) ⟨2⟩ "" ""
      (.str "x") .null).2.1 "x" rfl
  · exact (overload_resolution_rules (fun _ => false) ⟨2⟩ "" ""
      (.list ["a", "b"]) .undef).2.2.1 ["a", "b"] rfl

/-- The argument array make hands to the runner, as a function of the effective
options and effective caller arguments. -/
theorem make_args_eq (mi : MachineInfo) (cwd : String) (args : JSArg) (options : OptsParam) :
    (make mi cwd args options).args = .list
      ((if (makeEffectiveOpts args options).supportsParallelBuild.getD true then
          ["--jobs=" ++ toString (jnumMin (mi.cores + 1)
            ((makeEffectiveOpts args options).maxParallelJobs.getD JNum.inf))]
        else []) ++ makeEffectiveArgs args options) := by
  cases options <;> cases args <;> rfl

/-- C1: when the effective supportsParallelBuild is true (its default), the
argument list make passes to the runner begins with a jobs flag whose value is
the minimum of the detected core count plus one and maxParallelJobs, placed
before all caller-supplied arguments; when supportsParallelBuild is false no
jobs flag is added; and when maxParallelJobs is 1 the flag value is exactly 1
whatever the core count. -/
theorem make_jobs_flag (mi : MachineInfo) (cwd : String) (args : JSArg) (options : OptsParam) :
    ((makeEffectiveOpts args options).supportsParallelBuild = some true →
      (make mi cwd args options).args = .list
        (("--jobs=" ++ toString (jnumMin (mi.cores + 1)
            ((makeEffectiveOpts args options).maxParallelJobs.getD JNum.inf)))
          :: makeEffectiveArgs args options)) ∧
    ((makeEffectiveOpts args options).supportsParallelBuild = some false →
      (make mi cwd args options).args = .list (makeEffectiveArgs args options)) ∧
    ((makeEffectiveOpts args options).supportsParallelBuild = some true →
      (makeEffectiveOpts args options).maxParallelJobs = some (JNum.fin 1) →
      (make mi cwd args options).args
        = .list ("--jobs=1" :: makeEffectiveArgs args options)) := by
  refine ⟨?_, ?_, ?_⟩
  · intro h
    rw [make_args_eq, h]
    rfl
  · intro h
    rw [make_args_eq, h]
    rfl
  · intro h1 h2
    rw [make_args_eq, h1, h2]
    have hmin : jnumMin (mi.cores + 1) ((some (JNum.fin 1)).getD JNum.inf) = 1 := by
      simp [jnumMin]
    rw [hmin]
    rfl

/-- Witness for C1 at concrete inputs: four detected cores with defaulted
options, with maxParallelJobs 1, and with parallel builds disabled. -/
theorem make_jobs_flag_witness :
    (make ⟨4⟩ "/s" (.list ["install"]) .undef).args = .list ["--jobs=5", "install"] ∧
    (make ⟨4⟩ "/s" (.list ["install"]) (.given { maxParallelJobs := some (JNum.fin 1) })).args
      = .list ["--jobs=1", "install"] ∧
    (make ⟨4⟩ "/s" (.list ["install"])
        (.given { supportsParallelBuild := some false })).args = .list ["install"] := by
  refine ⟨?_, ?_, ?_⟩
  · exact (make_jobs_flag ⟨4⟩ "/s" (.list ["install"]) .undef).1 rfl
  · exact (make_jobs_flag ⟨4⟩ "/s" (.list ["install"])
      (.given { maxParallelJobs := some (JNum.fin 1) })).2.2 rfl rfl
  · exact (make_jobs_flag ⟨4⟩ "/s" (.list ["install"])
      (.given { supportsParallelBuild := some false })).2.1 rfl

/-- C9: none of the four entry points mutates a caller-supplied argument array
or environment object: every array cell valid before a call holds the same
value after it, the object heap is untouched, and make places its combined
argument list in a freshly allocated cell. -/
theorem no_caller_mutation (hA : ArrHeap) (hO : ObjHeap) (mi : MachineInfo)
    (fexists : String → Bool) (cwd cmd patchFile : String) (patchLevel : Int)
    (argsRef envRef r : Nat) (spb : Bool) (mpj : JNum)
    (hr : r < hA.length) :
    readArr (makeSt hA hO mi cwd argsRef envRef spb mpj).2.1 r = readArr hA r ∧
    (makeSt hA hO mi cwd argsRef envRef spb mpj).2.2 = hO ∧
    hA.length ≤ (makeSt hA hO mi cwd argsRef envRef spb mpj).1.argsRef ∧
    (runWithinEnvironmentSt hA hO cwd cmd argsRef envRef).2.1 = hA ∧
    (runWithinEnvironmentSt hA hO cwd cmd argsRef envRef).2.2 = hO ∧
    readArr (patchSt hA hO cwd patchFile patchLevel envRef).2.1 r = readArr hA r ∧
    (patchSt hA hO cwd patchFile patchLevel envRef).2.2 = hO ∧
    (configureSt fexists hA hO cwd argsRef envRef).2.1 = hA ∧
    (configureSt fexists hA hO cwd argsRef envRef).2.2 = hO := by
  have hne : hA.length ≠ r := Nat.ne_of_gt hr
  have hconf1 : (configureSt fexists hA hO cwd argsRef envRef).2.1 = hA := by
    unfold configureSt
    cases findConfigureScript fexists cwd <;> rfl
  have hconf2 : (configureSt fexists hA hO cwd argsRef envRef).2.2 = hO := by
    unfold configureSt
    cases findConfigureScript fexists cwd <;> rfl
  refine ⟨?_, ?_, ?_, rfl, rfl, ?_, rfl, hconf1, hconf2⟩
  · unfold makeSt allocArr writeArr
    cases spb with
    | false =>
      simp only [if_false, Bool.false_eq_true]
      rw [readArr_append_lt _ _ _ (by simp; omega), readArr_append_lt _ _ _ hr]
    | true =>
      simp only [if_true]
      rw [readArr_append_lt _ _ _ (by simp [List.length_set]; omega),
        readArr_set_ne _ _ _ _ hne, readArr_append_lt _ _ _ hr]
  · unfold makeSt
    cases spb <;> rfl
  · unfold makeSt allocArr writeArr
    cases spb <;> simp [List.length_set]
  · unfold patchSt allocArr
    exact readArr_append_lt _ _ _ hr

/-- Witness for C9 at concrete inputs: a one-cell heap read back unchanged
after every entry point runs. -/
theorem no_caller_mutation_witness :
    readArr (makeSt [["a", "b"]] [[("E", "1")]] ⟨4⟩ "/s" 0 0 true JNum.inf).2.1 0 = ["a", "b"] ∧
    readArr (patchSt [["a", "b"]] [[("E", "1")]] "/s" "f.patch" 0 0).2.1 0 = ["a", "b"] ∧
    (makeSt [["a", "b"]] [[("E", "1")]] ⟨4⟩ "/s" 0 0 true JNum.inf).2.2 = [[("E", "1")]] := by
  have h := no_caller_mutation [["a", "b"]] [[("E", "1")]] ⟨4⟩ (fun _ => false)
    "/s" "make" "f.patch" 0 0 0 0 true JNum.inf (by decide)
  exact ⟨h.1, h.2.2.2.2.2.1, h.2.1⟩

end CompilationUtils
